import Mathlib

/-!
Verification of the vs.logger event pipeline.

The development shallowly embeds the library source `src/lib/logger.cpp`
(with header `src/include/vs-logger/logger.hpp`) together with the variant
implementation found in `src/unnamed/part_001`.  Byte strings are modelled
as `List Char`, one `Char` per byte; `uint64_t` values are `Nat` reduced
modulo `2 ^ 64` where the code can overflow.
-/

namespace VS

/-- Kind axis of a log entry, from `Logger::type_t` in the header. -/
inductive type_t
  | OK
  | INFO
  | WARNING
  | ERROR
  | PANIC
deriving DecidableEq, Repr

/-- Severity axis of a log entry, from `Logger::severity_t` in the header. -/
inductive severity_t
  | NONE
  | LOW
  | MID
  | HIGH
deriving DecidableEq, Repr

/-- Embedding of `to_string(Logger::type_t)` from the source. -/
def typeToString : type_t → List Char
  | .OK => "OK".data
  | .INFO => "INFO".data
  | .WARNING => "WARNING".data
  | .ERROR => "ERROR".data
  | .PANIC => "PANIC".data

/-- Embedding of `to_string(Logger::severity_t)` from the source. -/
def sevToString : severity_t → List Char
  | .NONE => "NONE".data
  | .LOW => "LOW".data
  | .MID => "MID".data
  | .HIGH => "HIGH".data

/-- Modulus of `uint64_t` arithmetic. -/
def U64 : Nat := 2 ^ 64

/-- Embedding of `Logger::log_entry_t` from the header. -/
structure log_entry_t where
  type : type_t
  sev : severity_t
  timestamp : Nat
  activity_uuid : Nat
  seq_id : Nat
  parent_uuid : Nat
  offset : Nat
  length : Nat
deriving DecidableEq, Repr

/-- Decimal digit character, as produced by the stream and format output of
unsigned integers in the source. -/
def digitChar : Nat → Char
  | 0 => '0'
  | 1 => '1'
  | 2 => '2'
  | 3 => '3'
  | 4 => '4'
  | 5 => '5'
  | 6 => '6'
  | 7 => '7'
  | 8 => '8'
  | 9 => '9'
  | _ => '*'

/-- Accumulator form of decimal rendering of a natural number, with a
structural fuel argument so the kernel can evaluate it; any fuel above the
number itself yields the rendering. -/
def natStrGo : Nat → Nat → List Char → List Char
  | 0, _, acc => acc
  | fuel + 1, n, acc =>
    if n < 10 then digitChar n :: acc
    else natStrGo fuel (n / 10) (digitChar (n % 10) :: acc)

/-- Decimal rendering of a natural number, the embedding of streaming or
formatting a `uint64_t` in the source. -/
def natStr (n : Nat) : List Char := natStrGo (n + 1) n []

/-- Embedding of `escape_json` from `src/unnamed/part_001`: escapes the
quote, the backslash, and exactly five control characters. -/
def escape_json : List Char → List Char
  | [] => []
  | c :: rest =>
    (if c = '"' then ['\\', '"']
     else if c = '\\' then ['\\', '\\']
     else if c = Char.ofNat 8 then ['\\', 'b']
     else if c = Char.ofNat 12 then ['\\', 'f']
     else if c = Char.ofNat 10 then ['\\', 'n']
     else if c = Char.ofNat 13 then ['\\', 'r']
     else if c = Char.ofNat 9 then ['\\', 't']
     else [c]) ++ escape_json rest

/-- The line `Logger::writeToFS` appends for one entry, from the
`std::format` call in `src/lib/logger.cpp` (identical in the variant):
the message is inserted verbatim, with no escaping. -/
def fsLine (e : log_entry_t) (msg : List Char) : List Char :=
  "[".data ++ typeToString e.type ++
  "], \x7b".data ++ sevToString e.sev ++
  "\x7d, Activity: ".data ++ natStr e.activity_uuid ++
  " Seq: ".data ++ natStr e.seq_id ++
  " Parent: ".data ++ natStr e.parent_uuid ++
  " \x2d\x2d ".data ++ msg ++
  "\n".data

/-- The JSON payload built by `Logger::writeToWS` in `src/lib/logger.cpp`:
uuids are rendered as bare numbers and the message is inserted verbatim,
with no escaping. -/
def wsPayloadLib (e : log_entry_t) (msg : List Char) : List Char :=
  "\x7b\"timestamp\":".data ++ natStr e.timestamp ++
  ",\"type\":\"".data ++ typeToString e.type ++
  "\",\"severity\":\"".data ++ sevToString e.sev ++
  "\",\"activity_uuid\":".data ++ natStr e.activity_uuid ++
  ",\"seq_id\":".data ++ natStr e.seq_id ++
  ",\"parent_uuid\":".data ++ natStr e.parent_uuid ++
  ",\"message\":\"".data ++ msg ++
  "\"\x7d".data

/-- The JSON payload built by `Logger::writeToWS` in `src/unnamed/part_001`:
uuids are rendered as quoted strings and the message goes through
`escape_json`. -/
def wsPayloadP1 (e : log_entry_t) (msg : List Char) : List Char :=
  "\x7b\"timestamp\":".data ++ natStr e.timestamp ++
  ",\"type\":\"".data ++ typeToString e.type ++
  "\",\"severity\":\"".data ++ sevToString e.sev ++
  "\",\"activity_uuid\":\"".data ++ natStr e.activity_uuid ++
  "\",\"seq_id\":".data ++ natStr e.seq_id ++
  ",\"parent_uuid\":\"".data ++ natStr e.parent_uuid ++
  "\",\"message\":\"".data ++ escape_json msg ++
  "\"\x7d".data

/-- Sink configuration of one Logger instance, fixed at construction:
`hasFile` and `hasUds` are `logFilePath.has_value()` and
`udsPath.has_value()`; `fileOpen` is `logFileStream.is_open()`. -/
structure LoggerCfg where
  hasFile : Bool
  hasUds : Bool
  fileOpen : Bool
deriving DecidableEq, Repr

/-- Mutable state of one Logger instance relevant to the pipeline: the
`seq_id` counter, `0` at construction. -/
structure LoggerState where
  seq_id : Nat
deriving DecidableEq, Repr

/-- Per-call environment: the monotonic clock reading consumed by
`getTimestamp`, and whether the `sendto` call of this invocation succeeds. -/
structure Env where
  timestamp : Nat
  sendOk : Bool
deriving DecidableEq, Repr

/-- Observable output of one `log` call: lines appended to the file,
datagrams delivered by `sendto`, and diagnostics printed to `std::cerr`. -/
structure SinkOut where
  fileLines : List (List Char)
  sent : List (List Char)
  diags : List (List Char)
deriving DecidableEq, Repr

/-- Embedding of `Logger::writeToFS` from `src/lib/logger.cpp`: if the
stream is not open the function reports and returns; otherwise it appends
exactly one formatted line.  Returns (lines appended, diagnostics). -/
def writeToFS (cfg : LoggerCfg) (e : log_entry_t) (msg : List Char) :
    List (List Char) × List (List Char) :=
  if cfg.fileOpen then ([fsLine e msg], [])
  else ([], ["Log file not open!".data])

/-- Embedding of `Logger::writeToWS` from `src/lib/logger.cpp`: builds the
JSON payload and attempts `sendto`; a failed send is only reported to
`std::cerr`.  Returns (datagrams delivered, diagnostics). -/
def writeToWS (env : Env) (e : log_entry_t) (msg : List Char) :
    List (List Char) × List (List Char) :=
  if env.sendOk then ([wsPayloadLib e msg], [])
  else ([], ["notifySubscribers: Failed to send payload".data])

/-- The entry built inside `Logger::log`: timestamp from the clock,
`seq_id` incremented with `uint64_t` wraparound, `offset` set to `0`,
`length` set to the message byte size. -/
def buildEntry (env : Env) (st : LoggerState) (type : type_t)
    (sev : severity_t) (msg : List Char) (activity_uuid parent_uuid : Nat) :
    log_entry_t :=
  { type := type
    sev := sev
    timestamp := env.timestamp % U64
    activity_uuid := activity_uuid % U64
    seq_id := (st.seq_id + 1) % U64
    parent_uuid := parent_uuid % U64
    offset := 0
    length := msg.length }

/-- Embedding of `Logger::log` from `src/lib/logger.cpp`.  The body runs
under `writeMutex`, so concurrent calls are modelled as a sequence of
invocations of this function.  The result is `Except` so that an escaping
exception would be representable; the body never produces one, since every
fallible operation in the source checks its result and reports to
`std::cerr` instead. -/
def log (cfg : LoggerCfg) (env : Env) (st : LoggerState) (type : type_t)
    (sev : severity_t) (msg : List Char) (activity_uuid parent_uuid : Nat) :
    Except (List Char) (LoggerState × log_entry_t × SinkOut) :=
  let e := buildEntry env st type sev msg activity_uuid parent_uuid
  let fs := if cfg.hasFile then writeToFS cfg e msg else ([], [])
  let ws := if cfg.hasUds then writeToWS env e msg else ([], [])
  Except.ok (⟨(st.seq_id + 1) % U64⟩, e, ⟨fs.1, ws.1, fs.2 ++ ws.2⟩)

/-- Boolean success test for `Except`. -/
def isOkE {ε α : Type} : Except ε α → Bool
  | .ok _ => true
  | .error _ => false

/-- Diagnostics of a `log` result (empty for an escaped exception). -/
def diagsOf : Except (List Char) (LoggerState × log_entry_t × SinkOut) →
    List (List Char)
  | .ok r => r.2.2.diags
  | .error _ => []

/-- Entry list produced by a sequence of `log` calls, one environment and
argument tuple per call, threading the counter state. -/
def runLogs (cfg : LoggerCfg) (st : LoggerState) :
    List (Env × type_t × severity_t × List Char × Nat × Nat) →
    LoggerState × List log_entry_t
  | [] => (st, [])
  | (env, ty, sv, msg, a, p) :: rest =>
    match log cfg env st ty sv msg a p with
    | .ok (st1, e, _) =>
      let r := runLogs cfg st1 rest
      (r.1, e :: r.2)
    | .error _ => runLogs cfg st rest

/-- Embedding of `std::string(buffer)` applied to the NUL-terminated
receive buffer in the bridge loop: the constructed string stops at the
first NUL byte. -/
def cString (bs : List Char) : List Char :=
  bs.takeWhile (fun c => c ≠ Char.ofNat 0)

/-- Broker state: the live subscriber set `wsConnections` (subscribers
named by numbers) and, for observation, the list of payloads each
subscriber has been successfully sent. -/
structure BrokerState where
  subs : List Nat
  inbox : Nat → List (List Char)

/-- Events driving the broker: the `onopen` and `onclose` callbacks of the
transport, and one iteration of the bridge receive loop.  A datagram event
carries the arriving payload and the set of subscribers whose
`send_text` throws during this broadcast. -/
inductive BEvent
  | register (s : Nat)
  | unregister (s : Nat)
  | datagram (payload : List Char) (fails : List Nat)

/-- One step of the broker, from `Logger::start_server` in
`src/lib/logger.cpp`: `onopen` inserts into the set, `onclose` erases, and
a received datagram of `n > 0` bytes (`recv` reads at most
`BUFFER_SIZE - 1 = 1023` bytes) is broadcast as `std::string(buffer)` to
every current subscriber; a throwing send is caught and only reported, the
failing subscriber stays in the set. -/
def bstep (st : BrokerState) : BEvent → BrokerState
  | .register s =>
    { st with subs := if s ∈ st.subs then st.subs else st.subs ++ [s] }
  | .unregister s =>
    { st with subs := st.subs.filter (fun x => x ≠ s) }
  | .datagram p fails =>
    let recvd := p.take 1023
    if recvd.length > 0 then
      { st with inbox := fun x =>
          if x ∈ st.subs ∧ x ∉ fails then st.inbox x ++ [cString recvd]
          else st.inbox x }
    else st

/-- A broker run over a sequence of events. -/
def brun (st : BrokerState) (evs : List BEvent) : BrokerState :=
  evs.foldl bstep st

/-- Decimal digit test of a standard JSON number lexer. -/
def isDigit (c : Char) : Bool := 48 ≤ c.toNat && c.toNat ≤ 57

/-- Numeric value of a decimal digit character. -/
def digitVal (c : Char) : Nat := c.toNat - 48

/-- Modelled from the spec: value of a JSON two-character escape sequence,
per standard JSON string escaping (the spec requires decoding with a
standard JSON parser; no decoder exists in the repository). -/
def unescChar : Char → Option Char
  | '"' => some '"'
  | '\\' => some '\\'
  | '/' => some '/'
  | 'b' => some (Char.ofNat 8)
  | 'f' => some (Char.ofNat 12)
  | 'n' => some (Char.ofNat 10)
  | 'r' => some (Char.ofNat 13)
  | 't' => some (Char.ofNat 9)
  | _ => none

/-- Modelled from the spec: standard JSON string-body parsing after the
opening quote, up to and including the closing quote.  Raw control
characters below `0x20` are rejected, as standard JSON requires. -/
def parseStr : List Char → Option (List Char × List Char)
  | [] => none
  | c :: rest =>
    if c = '"' then some ([], rest)
    else if c = '\\' then
      match rest with
      | [] => none
      | e :: rest1 =>
        match unescChar e with
        | none => none
        | some d =>
          match parseStr rest1 with
          | none => none
          | some (s, r) => some (d :: s, r)
    else if c.toNat < 32 then none
    else
      match parseStr rest with
      | none => none
      | some (s, r) => some (c :: s, r)

/-- Value of a digit string, most significant digit first. -/
def digitsVal (ds : List Char) : Nat :=
  ds.foldl (fun a c => 10 * a + digitVal c) 0

/-- Modelled from the spec: standard JSON parsing of a nonnegative
integer number token (greedy digit run). -/
def parseNum (l : List Char) : Option (Nat × List Char) :=
  let ds := l.takeWhile (fun c => isDigit c)
  if ds.isEmpty then none
  else some (digitsVal ds, l.dropWhile (fun c => isDigit c))

/-- Consume an expected literal character sequence. -/
def expectLit : List Char → List Char → Option (List Char)
  | [], l => some l
  | _ :: _, [] => none
  | c :: cs, x :: xs => if x = c then expectLit cs xs else none

/-- Modelled from the spec: a uuid field value is a JSON number or a JSON
string holding a number, per the payload field contract of section 4.3. -/
def parseUuid (l : List Char) : Option (Nat × List Char) :=
  match l with
  | [] => none
  | c :: rest =>
    if c = '"' then
      match parseNum rest with
      | none => none
      | some (n, r) =>
        match r with
        | [] => none
        | d :: r1 => if d = '"' then some (n, r1) else none
    else parseNum l

/-- True when a list does not start with a decimal digit, so a greedy
number token cannot extend into it. -/
def noLeadDigit : List Char → Bool
  | [] => true
  | c :: _ => !isDigit c

/-- A character a standard JSON string lexer passes through verbatim:
not the quote, not the backslash, not a raw control character. -/
def plainChar (c : Char) : Prop :=
  c ≠ '"' ∧ c ≠ '\\' ∧ 32 ≤ c.toNat

instance (c : Char) : Decidable (plainChar c) := by
  unfold plainChar; infer_instance

/-- A message byte `escape_json` renders into valid JSON: anything at or
above `0x20`, or one of the five control characters it escapes. -/
def msgByteOk (c : Char) : Prop :=
  32 ≤ c.toNat ∨ c = Char.ofNat 8 ∨ c = Char.ofNat 12 ∨ c = Char.ofNat 10 ∨
    c = Char.ofNat 13 ∨ c = Char.ofNat 9

instance (c : Char) : Decidable (msgByteOk c) := by
  unfold msgByteOk; infer_instance

/-- The seven decoded payload fields. -/
structure PayloadFields where
  timestamp : Nat
  type : List Char
  severity : List Char
  activity_uuid : Nat
  seq_id : Nat
  parent_uuid : Nat
  message : List Char
deriving DecidableEq, Repr

/-- Sequencing combinator of the payload parser: run a token parser and
continue with its value and the remaining input. -/
def step {α β : Type} (p : List Char → Option (α × List Char)) (l : List Char)
    (k : α → List Char → Option β) : Option β :=
  match p l with
  | none => none
  | some (a, r) => k a r

/-- Sequencing combinator of the payload parser: consume an expected
literal and continue with the remaining input. -/
def stepLit {β : Type} (lit l : List Char) (k : List Char → Option β) : Option β :=
  match expectLit lit l with
  | none => none
  | some r => k r

/-- Modelled from the spec: decoding of the wire payload object by a
standard JSON parser, field by field in the emitted order. -/
def parsePayload (l : List Char) : Option PayloadFields :=
  stepLit "\x7b\"timestamp\":".data l fun l1 =>
  step parseNum l1 fun ts l2 =>
  stepLit ",\"type\":\"".data l2 fun l3 =>
  step parseStr l3 fun ty l4 =>
  stepLit ",\"severity\":\"".data l4 fun l5 =>
  step parseStr l5 fun sv l6 =>
  stepLit ",\"activity_uuid\":".data l6 fun l7 =>
  step parseUuid l7 fun au l8 =>
  stepLit ",\"seq_id\":".data l8 fun l9 =>
  step parseNum l9 fun sq l10 =>
  stepLit ",\"parent_uuid\":".data l10 fun l11 =>
  step parseUuid l11 fun pu l12 =>
  stepLit ",\"message\":\"".data l12 fun l13 =>
  step parseStr l13 fun ms l14 =>
  stepLit "\x7d".data l14 fun l15 =>
  if l15 = [] then some ⟨ts, ty, sv, au, sq, pu, ms⟩ else none

/-! Helper lemmas about decimal rendering. -/

theorem natStrGo_append (fuel : Nat) : ∀ (n : Nat) (acc : List Char),
    natStrGo fuel n acc = natStrGo fuel n [] ++ acc := by
  induction fuel with
  | zero => intro n acc; rfl
  | succ f ih =>
    intro n acc
    by_cases h : n < 10
    · simp [natStrGo, h]
    · simp only [natStrGo, if_neg h]
      rw [ih (n / 10) (digitChar (n % 10) :: acc), ih (n / 10) [digitChar (n % 10)]]
      simp

theorem natStrGo_fuel (n : Nat) : ∀ f1 f2 : Nat, n < f1 → n < f2 → ∀ acc : List Char,
    natStrGo f1 n acc = natStrGo f2 n acc := by
  induction n using Nat.strong_induction_on with
  | _ n ih =>
    intro f1 f2 h1 h2 acc
    cases f1 with
    | zero => omega
    | succ a =>
      cases f2 with
      | zero => omega
      | succ b =>
        by_cases h : n < 10
        · simp [natStrGo, h]
        · simp only [natStrGo, if_neg h]
          have hd : n / 10 < n := Nat.div_lt_self (by omega) (by decide)
          exact ih (n / 10) hd a b (by omega) (by omega) _

theorem natStr_small {n : Nat} (h : n < 10) : natStr n = [digitChar n] := by
  simp [natStr, natStrGo, h]

theorem natStr_step {n : Nat} (h : ¬ n < 10) :
    natStr n = natStr (n / 10) ++ [digitChar (n % 10)] := by
  have hd : n / 10 < n := Nat.div_lt_self (by omega) (by decide)
  simp only [natStr, natStrGo, if_neg h]
  rw [natStrGo_append n (n / 10) [digitChar (n % 10)],
    natStrGo_fuel (n / 10) n (n / 10 + 1) hd (by omega) []]
  rfl

theorem isDigit_digitChar {m : Nat} (h : m < 10) : isDigit (digitChar m) = true := by
  interval_cases m <;> decide

theorem digitVal_digitChar {m : Nat} (h : m < 10) : digitVal (digitChar m) = m := by
  interval_cases m <;> decide

theorem natStr_digits (n : Nat) : ∀ c ∈ natStr n, isDigit c = true := by
  induction n using Nat.strong_induction_on with
  | _ n ih =>
    by_cases h : n < 10
    · rw [natStr_small h]
      intro c hc
      rw [List.mem_singleton] at hc
      subst hc
      exact isDigit_digitChar h
    · rw [natStr_step h]
      intro c hc
      rcases List.mem_append.mp hc with hc | hc
      · exact ih (n / 10) (Nat.div_lt_self (by omega) (by decide)) c hc
      · rw [List.mem_singleton] at hc
        subst hc
        exact isDigit_digitChar (Nat.mod_lt _ (by decide))

theorem natStr_ne_nil (n : Nat) : natStr n ≠ [] := by
  by_cases h : n < 10
  · rw [natStr_small h]; simp
  · rw [natStr_step h]; simp

theorem natStr_head (n : Nat) : ∃ d ds, natStr n = d :: ds ∧ isDigit d = true := by
  induction n using Nat.strong_induction_on with
  | _ n ih =>
    by_cases h : n < 10
    · exact ⟨digitChar n, [], natStr_small h, isDigit_digitChar h⟩
    · obtain ⟨d, ds, heq, hdig⟩ := ih (n / 10) (Nat.div_lt_self (by omega) (by decide))
      refine ⟨d, ds ++ [digitChar (n % 10)], ?_, hdig⟩
      rw [natStr_step h, heq, List.cons_append]

theorem digitsVal_snoc (l : List Char) (c : Char) :
    digitsVal (l ++ [c]) = 10 * digitsVal l + digitVal c := by
  simp [digitsVal, List.foldl_append]

theorem digitsVal_natStr (n : Nat) : digitsVal (natStr n) = n := by
  induction n using Nat.strong_induction_on with
  | _ n ih =>
    by_cases h : n < 10
    · rw [natStr_small h]
      simp [digitsVal, digitVal_digitChar h]
    · rw [natStr_step h, digitsVal_snoc,
        ih (n / 10) (Nat.div_lt_self (by omega) (by decide)),
        digitVal_digitChar (Nat.mod_lt _ (by decide))]
      exact Nat.div_add_mod n 10

/-! Helper lemmas about token parsing. -/

theorem takeWhile_append_all (p : Char → Bool) :
    ∀ (s r : List Char), (∀ c ∈ s, p c = true) →
    (s ++ r).takeWhile p = s ++ r.takeWhile p := by
  intro s
  induction s with
  | nil => simp
  | cons c cs ih =>
    intro r h
    rw [List.cons_append, List.takeWhile_cons, if_pos (h c (List.mem_cons_self c cs)),
      ih r (fun d hd => h d (List.mem_cons_of_mem c hd)), List.cons_append]

theorem dropWhile_append_all (p : Char → Bool) :
    ∀ (s r : List Char), (∀ c ∈ s, p c = true) →
    (s ++ r).dropWhile p = r.dropWhile p := by
  intro s
  induction s with
  | nil => simp
  | cons c cs ih =>
    intro r h
    rw [List.cons_append, List.dropWhile_cons_of_pos (h c (List.mem_cons_self c cs)),
      ih r (fun d hd => h d (List.mem_cons_of_mem c hd))]

theorem parseNum_natStr (n : Nat) (r : List Char) (h : noLeadDigit r = true) :
    parseNum (natStr n ++ r) = some (n, r) := by
  have htw : r.takeWhile (fun c => isDigit c) = [] := by
    cases r with
    | nil => rfl
    | cons c cs =>
      simp only [noLeadDigit, Bool.not_eq_true'] at h
      simp [List.takeWhile_cons, h]
  have hdw : r.dropWhile (fun c => isDigit c) = r := by
    cases r with
    | nil => rfl
    | cons c cs =>
      simp only [noLeadDigit, Bool.not_eq_true'] at h
      simp [List.dropWhile_cons, h]
  unfold parseNum
  rw [takeWhile_append_all _ _ _ (natStr_digits n),
    dropWhile_append_all _ _ _ (natStr_digits n), htw, hdw, List.append_nil]
  rw [if_neg (by simp [List.isEmpty_iff, natStr_ne_nil n]), digitsVal_natStr n]

theorem expectLit_append (lit r : List Char) : expectLit lit (lit ++ r) = some r := by
  induction lit with
  | nil => rfl
  | cons c cs ih => simp [expectLit, ih]

theorem parseUuid_bare (n : Nat) (r : List Char) (h : noLeadDigit r = true) :
    parseUuid (natStr n ++ r) = some (n, r) := by
  obtain ⟨d, ds, heq, hdig⟩ := natStr_head n
  rw [heq, List.cons_append]
  have hdq : ¬ d = '"' := by
    intro hh
    rw [hh] at hdig
    exact absurd hdig (by decide)
  simp only [parseUuid, if_neg hdq]
  rw [← List.cons_append, ← heq]
  exact parseNum_natStr n r h

theorem parseUuid_quoted (n : Nat) (r : List Char) :
    parseUuid ('"' :: (natStr n ++ '"' :: r)) = some (n, r) := by
  simp only [parseUuid, if_pos rfl]
  rw [parseNum_natStr n ('"' :: r) rfl]
  simp

theorem parseStr_plain : ∀ (s r : List Char), (∀ c ∈ s, plainChar c) →
    parseStr (s ++ '"' :: r) = some (s, r) := by
  intro s
  induction s with
  | nil =>
    intro r _
    rw [List.nil_append, parseStr.eq_def]
    simp
  | cons c cs ih =>
    intro r h
    obtain ⟨h1, h2, h3⟩ := h c (List.mem_cons_self c cs)
    rw [List.cons_append, parseStr.eq_def]
    simp only [ih r (fun d hd => h d (List.mem_cons_of_mem c hd)), if_neg h1, if_neg h2,
      if_neg (by omega : ¬ c.toNat < 32)]

theorem parseStr_esc_step (x d : Char) (cs r rest : List Char)
    (hx : unescChar x = some d) (ht : parseStr rest = some (cs, r)) :
    parseStr ('\\' :: x :: rest) = some (d :: cs, r) := by
  rw [parseStr.eq_def]
  simp only [if_neg (by decide : ¬ ('\\' : Char) = '"'), if_pos rfl, hx, ht]
  simp

theorem parseStr_escape : ∀ (s r : List Char), (∀ c ∈ s, msgByteOk c) →
    parseStr (escape_json s ++ '"' :: r) = some (s, r) := by
  intro s
  induction s with
  | nil =>
    intro r _
    rw [show escape_json [] = [] from rfl, List.nil_append, parseStr.eq_def]
    simp
  | cons c cs ih =>
    intro r h
    have hc := h c (List.mem_cons_self c cs)
    have hr := ih r (fun d hd => h d (List.mem_cons_of_mem c hd))
    by_cases h1 : c = '"'
    · subst h1
      simp only [escape_json, if_pos rfl, List.cons_append, List.nil_append]
      exact parseStr_esc_step '"' '"' cs r _ (by decide) hr
    · by_cases h2 : c = '\\'
      · subst h2
        simp only [escape_json, if_neg (by decide : ¬ ('\\' : Char) = '"'),
          if_pos rfl, List.cons_append, List.nil_append]
        exact parseStr_esc_step '\\' '\\' cs r _ (by decide) hr
      · by_cases h3 : c = Char.ofNat 8
        · subst h3
          simp only [escape_json, if_neg (by decide : ¬ Char.ofNat 8 = '"'),
            if_neg (by decide : ¬ Char.ofNat 8 = '\\'), if_pos rfl,
            List.cons_append, List.nil_append]
          exact parseStr_esc_step 'b' (Char.ofNat 8) cs r _ (by decide) hr
        · by_cases h4 : c = Char.ofNat 12
          · subst h4
            simp only [escape_json, if_neg (by decide : ¬ Char.ofNat 12 = '"'),
              if_neg (by decide : ¬ Char.ofNat 12 = '\\'),
              if_neg (by decide : ¬ Char.ofNat 12 = Char.ofNat 8), if_pos rfl,
              List.cons_append, List.nil_append]
            exact parseStr_esc_step 'f' (Char.ofNat 12) cs r _ (by decide) hr
          · by_cases h5 : c = Char.ofNat 10
            · subst h5
              simp only [escape_json, if_neg (by decide : ¬ Char.ofNat 10 = '"'),
                if_neg (by decide : ¬ Char.ofNat 10 = '\\'),
                if_neg (by decide : ¬ Char.ofNat 10 = Char.ofNat 8),
                if_neg (by decide : ¬ Char.ofNat 10 = Char.ofNat 12), if_pos rfl,
                List.cons_append, List.nil_append]
              exact parseStr_esc_step 'n' (Char.ofNat 10) cs r _ (by decide) hr
            · by_cases h6 : c = Char.ofNat 13
              · subst h6
                simp only [escape_json, if_neg (by decide : ¬ Char.ofNat 13 = '"'),
                  if_neg (by decide : ¬ Char.ofNat 13 = '\\'),
                  if_neg (by decide : ¬ Char.ofNat 13 = Char.ofNat 8),
                  if_neg (by decide : ¬ Char.ofNat 13 = Char.ofNat 12),
                  if_neg (by decide : ¬ Char.ofNat 13 = Char.ofNat 10), if_pos rfl,
                  List.cons_append, List.nil_append]
                exact parseStr_esc_step 'r' (Char.ofNat 13) cs r _ (by decide) hr
              · by_cases h7 : c = Char.ofNat 9
                · subst h7
                  simp only [escape_json, if_neg (by decide : ¬ Char.ofNat 9 = '"'),
                    if_neg (by decide : ¬ Char.ofNat 9 = '\\'),
                    if_neg (by decide : ¬ Char.ofNat 9 = Char.ofNat 8),
                    if_neg (by decide : ¬ Char.ofNat 9 = Char.ofNat 12),
                    if_neg (by decide : ¬ Char.ofNat 9 = Char.ofNat 10),
                    if_neg (by decide : ¬ Char.ofNat 9 = Char.ofNat 13), if_pos rfl,
                    List.cons_append, List.nil_append]
                  exact parseStr_esc_step 't' (Char.ofNat 9) cs r _ (by decide) hr
                · have h32 : 32 ≤ c.toNat := by
                    rcases hc with hc | hc | hc | hc | hc | hc
                    · exact hc
                    all_goals exact absurd hc (by assumption)
                  simp only [escape_json, if_neg h1, if_neg h2, if_neg h3, if_neg h4,
                    if_neg h5, if_neg h6, if_neg h7, List.cons_append, List.nil_append]
                  rw [parseStr.eq_def]
                  simp only [hr, if_neg h1, if_neg h2,
                    if_neg (by omega : ¬ c.toNat < 32)]

/-! Helper lemmas comparing the two publisher implementations. -/

theorem escape_json_length (s : List Char) : s.length ≤ (escape_json s).length := by
  induction s with
  | nil => simp [escape_json]
  | cons c cs ih =>
    simp only [escape_json, List.length_append, List.length_cons]
    split_ifs <;> simp <;> omega

theorem wsPayload_len_lt (e : log_entry_t) (msg : List Char) :
    (wsPayloadLib e msg).length < (wsPayloadP1 e msg).length := by
  have h := escape_json_length msg
  simp [wsPayloadLib, wsPayloadP1, List.length_append]
  omega


/-! Helper lemmas for decoding the escaping publisher payload. -/

theorem step_some {α β : Type} (p : List Char → Option (α × List Char)) (l : List Char)
    (k : α → List Char → Option β) (a : α) (r : List Char) (hp : p l = some (a, r)) :
    step p l k = k a r := by
  unfold step
  rw [hp]

theorem expectLit_cons (c : Char) (cs l : List Char) :
    expectLit (c :: cs) (c :: l) = expectLit cs l := by
  simp [expectLit]

theorem stepLit_cons {β : Type} (c : Char) (cs l : List Char) (k : List Char → Option β) :
    stepLit (c :: cs) (c :: l) k = stepLit cs l k := by
  unfold stepLit
  rw [expectLit_cons]

theorem stepLit_nil {β : Type} (l : List Char) (k : List Char → Option β) :
    stepLit [] l k = k l := rfl

theorem noLeadDigit_comma (X : List Char) : noLeadDigit (',' :: X) = true := rfl

set_option maxHeartbeats 1000000 in
set_option maxRecDepth 4000 in
theorem parsePayload_wsP1 (e : log_entry_t) (msg : List Char)
    (h : ∀ c ∈ msg, msgByteOk c) :
    parsePayload (wsPayloadP1 e msg) =
      some ⟨e.timestamp, typeToString e.type, sevToString e.sev,
        e.activity_uuid, e.seq_id, e.parent_uuid, msg⟩ := by
  have hty : ∀ c ∈ typeToString e.type, plainChar c := by cases e.type <;> decide
  have hsv : ∀ c ∈ sevToString e.sev, plainChar c := by cases e.sev <;> decide
  have d3 : ("\",\"severity\":\"".data : List Char) =
      '"' :: ",\"severity\":\"".data := by decide
  have d4 : ("\",\"activity_uuid\":\"".data : List Char) =
      '"' :: (",\"activity_uuid\":".data ++ ['"']) := by decide
  have d5 : ("\",\"seq_id\":".data : List Char) = '"' :: ",\"seq_id\":".data := by decide
  have d6 : (",\"parent_uuid\":\"".data : List Char) =
      ",\"parent_uuid\":".data ++ ['"'] := by decide
  have d7 : ("\",\"message\":\"".data : List Char) =
      '"' :: ",\"message\":\"".data := by decide
  have d8 : ("\"\x7d".data : List Char) = '"' :: "\x7d".data := by decide
  unfold wsPayloadP1
  rw [d3, d4, d5, d6, d7, d8]
  repeat (first
    | rw [List.append_assoc]
    | rw [List.cons_append]
    | rw [List.singleton_append]
    | rw [List.nil_append])
  unfold parsePayload
  repeat rw [stepLit_cons]
  rw [stepLit_nil]
  rw [step_some _ _ _ _ _ (parseNum_natStr e.timestamp _ (noLeadDigit_comma _))]
  repeat rw [stepLit_cons]
  rw [stepLit_nil]
  rw [step_some _ _ _ _ _ (parseStr_plain _ _ hty)]
  repeat rw [stepLit_cons]
  rw [stepLit_nil]
  rw [step_some _ _ _ _ _ (parseStr_plain _ _ hsv)]
  repeat rw [stepLit_cons]
  rw [stepLit_nil]
  rw [step_some _ _ _ _ _ (parseUuid_quoted e.activity_uuid _)]
  repeat rw [stepLit_cons]
  rw [stepLit_nil]
  rw [step_some _ _ _ _ _ (parseNum_natStr e.seq_id _ (noLeadDigit_comma _))]
  repeat rw [stepLit_cons]
  rw [stepLit_nil]
  rw [step_some _ _ _ _ _ (parseUuid_quoted e.parent_uuid _)]
  repeat rw [stepLit_cons]
  rw [stepLit_nil]
  rw [step_some _ _ _ _ _ (parseStr_escape _ _ h)]
  rfl


/-! Helper lemma for the sequence counter. -/

theorem runLogs_seqIds (cfg : LoggerCfg) :
    ∀ (calls : List (Env × type_t × severity_t × List Char × Nat × Nat))
      (st : LoggerState), st.seq_id + calls.length < U64 →
    (runLogs cfg st calls).2.map log_entry_t.seq_id =
      List.range' (st.seq_id + 1) calls.length := by
  intro calls
  induction calls with
  | nil => intro st _; simp [runLogs]
  | cons c rest ih =>
    intro st h
    obtain ⟨env, ty, sv, msg, a, p⟩ := c
    rw [List.length_cons] at h
    have hm : (st.seq_id + 1) % U64 = st.seq_id + 1 := Nat.mod_eq_of_lt (by omega)
    simp only [runLogs, log, buildEntry]
    rw [List.length_cons, List.range'_succ, hm, List.map_cons]
    rw [ih ⟨st.seq_id + 1⟩ (by simp; omega)]

/-- Claim C1: over any finite sequence of calls on a fresh Logger (the lock
serializes them), with any sink configuration and any per-call outcomes, the
assigned seq ids are exactly 1, 2, ..., N in order: the list of seq ids is
the range from 1 of length N, it has no duplicates, and its members are
exactly the values between 1 and N. -/
theorem seq_ids_exact_range (cfg : LoggerCfg)
    (calls : List (Env × type_t × severity_t × List Char × Nat × Nat))
    (h : calls.length < U64) :
    (runLogs cfg ⟨0⟩ calls).2.map log_entry_t.seq_id = List.range' 1 calls.length ∧
    ((runLogs cfg ⟨0⟩ calls).2.map log_entry_t.seq_id).Nodup ∧
    ∀ v, v ∈ (runLogs cfg ⟨0⟩ calls).2.map log_entry_t.seq_id ↔
      1 ≤ v ∧ v ≤ calls.length := by
  have key : (runLogs cfg ⟨0⟩ calls).2.map log_entry_t.seq_id =
      List.range' 1 calls.length := by
    simpa using runLogs_seqIds cfg calls ⟨0⟩ (by simpa using h)
  refine ⟨key, ?_, ?_⟩
  · rw [key]
    exact List.nodup_range' _ _
  · intro v
    rw [key, List.mem_range'_1]
    omega

/-- Witness for claim C1 at two concrete calls. -/
theorem seq_ids_exact_range_witness :
    (runLogs ⟨true, true, true⟩ ⟨0⟩
      [(⟨5, true⟩, .INFO, .MID, "a".data, 1, 0),
       (⟨6, false⟩, .OK, .LOW, "b".data, 2, 0)]).2.map log_entry_t.seq_id =
      List.range' 1 2 :=
  (seq_ids_exact_range ⟨true, true, true⟩ _ (by decide)).1

/-- Claim C10: the entry built by every log call has offset 0 and length
equal to the message byte size; log assigns no other offset. -/
theorem entry_offset_zero_length (cfg : LoggerCfg) (env : Env) (st : LoggerState)
    (ty : type_t) (sv : severity_t) (msg : List Char) (a p : Nat) :
    (buildEntry env st ty sv msg a p).offset = 0 ∧
    (buildEntry env st ty sv msg a p).length = msg.length ∧
    ∃ out, log cfg env st ty sv msg a p =
      Except.ok (⟨(st.seq_id + 1) % U64⟩, buildEntry env st ty sv msg a p, out) :=
  ⟨rfl, rfl, _, rfl⟩

/-- Claim C3: log always returns normally; a file sink failure or a send
failure is reported only on the diagnostic channel. -/
theorem log_never_fails (cfg : LoggerCfg) (env : Env) (st : LoggerState)
    (ty : type_t) (sv : severity_t) (msg : List Char) (a p : Nat) :
    isOkE (log cfg env st ty sv msg a p) = true ∧
    (cfg.hasFile = true → cfg.fileOpen = false →
      "Log file not open!".data ∈ diagsOf (log cfg env st ty sv msg a p)) ∧
    (cfg.hasUds = true → env.sendOk = false →
      "notifySubscribers: Failed to send payload".data ∈
        diagsOf (log cfg env st ty sv msg a p)) := by
  refine ⟨rfl, ?_, ?_⟩
  · intro h1 h2
    by_cases h3 : cfg.hasUds <;> by_cases h4 : env.sendOk <;>
      simp [log, diagsOf, writeToFS, writeToWS, h1, h2, h3, h4]
  · intro h3 h4
    by_cases h1 : cfg.hasFile <;> by_cases h2 : cfg.fileOpen <;>
      simp [log, diagsOf, writeToFS, writeToWS, h1, h2, h3, h4]

/-- Witness for claim C3 with both sinks failing. -/
theorem log_never_fails_witness :
    isOkE (log ⟨true, true, false⟩ ⟨0, false⟩ ⟨0⟩ .INFO .MID "m".data 1 2) = true ∧
    "Log file not open!".data ∈
      diagsOf (log ⟨true, true, false⟩ ⟨0, false⟩ ⟨0⟩ .INFO .MID "m".data 1 2) ∧
    "notifySubscribers: Failed to send payload".data ∈
      diagsOf (log ⟨true, true, false⟩ ⟨0, false⟩ ⟨0⟩ .INFO .MID "m".data 1 2) :=
  ⟨(log_never_fails _ _ _ _ _ _ _ _).1,
   (log_never_fails _ _ _ _ _ _ _ _).2.1 rfl rfl,
   (log_never_fails _ _ _ _ _ _ _ _).2.2 rfl rfl⟩


/-- Claim C2 counterexample: a datagram payload containing a NUL byte is
relayed truncated at the NUL (from `std::string(buffer)`), so a live
subscriber does not receive the accepted payload bytes unmodified. -/
theorem broker_relay_nul_counterexample :
    (bstep ⟨[7], fun _ => []⟩ (.datagram ['A', Char.ofNat 0, 'B'] [])).inbox 7 ≠
      [['A', Char.ofNat 0, 'B']] ∧
    (bstep ⟨[7], fun _ => []⟩ (.datagram ['A', Char.ofNat 0, 'B'] [])).inbox 7 =
      [['A']] := by
  decide

/-- Claim C2 (amended): for every nonempty accepted datagram, every
subscriber live at the broadcast whose send does not fail receives the
received bytes truncated at the first NUL (the exact bytes when none of the
first 1023 bytes is NUL); a subscriber outside the live set receives
nothing from that broadcast, and registration never delivers past
payloads. -/
theorem broker_relay_delivery (st : BrokerState) (p : List Char) (fails : List Nat)
    (s : Nat) (hp : p ≠ []) :
    (s ∈ st.subs ∧ s ∉ fails →
      (bstep st (.datagram p fails)).inbox s =
        st.inbox s ++ [cString (p.take 1023)]) ∧
    (s ∉ st.subs → (bstep st (.datagram p fails)).inbox s = st.inbox s) ∧
    (∀ (t : BrokerState) (u : Nat), (bstep t (.register u)).inbox = t.inbox) := by
  have hl : 0 < p.length := List.length_pos.mpr hp
  refine ⟨?_, ?_, ?_⟩
  · intro hmem
    simp [bstep, hl, hmem.1, hmem.2]
  · intro hno
    simp [bstep, hl, hno]
  · intro t u
    simp [bstep]

/-- Witness for claim C2 at a one-subscriber broadcast. -/
theorem broker_relay_delivery_witness :
    (bstep ⟨[7], fun _ => []⟩ (.datagram ['A'] [])).inbox 7 =
      (fun _ => ([] : List (List Char))) 7 ++ [cString (['A'].take 1023)] :=
  (broker_relay_delivery ⟨[7], fun _ => []⟩ ['A'] [] 7 (by decide)).1 (by decide)

/-- Claim C6 evaluation: with subscribers 1 and 2 and a send to 1 throwing,
subscriber 2 still receives the broadcast, but subscriber 1 is not removed
from the live set by the end of the broadcast. -/
theorem broker_send_failure_no_removal :
    (bstep ⟨[1, 2], fun _ => []⟩ (.datagram ['X'] [1])).inbox 2 = [['X']] ∧
    (bstep ⟨[1, 2], fun _ => []⟩ (.datagram ['X'] [1])).inbox 1 = [] ∧
    (bstep ⟨[1, 2], fun _ => []⟩ (.datagram ['X'] [1])).subs = [1, 2] := by
  decide

/-- Claim C4 evaluation: the escaping publisher leaves the control byte
0x01 raw in its payload, which a standard JSON parser rejects, and the
library publisher emits a raw newline for a newline message, also rejected:
neither payload escapes every C0 control character. -/
theorem writeToWS_escaping_defect :
    Char.ofNat 1 ∈ wsPayloadP1 ⟨.INFO, .MID, 7, 1, 1, 0, 0, 1⟩ [Char.ofNat 1] ∧
    parsePayload (wsPayloadP1 ⟨.INFO, .MID, 7, 1, 1, 0, 0, 1⟩ [Char.ofNat 1]) = none ∧
    Char.ofNat 10 ∈ wsPayloadLib ⟨.INFO, .MID, 7, 1, 1, 0, 0, 1⟩ [Char.ofNat 10] ∧
    parsePayload (wsPayloadLib ⟨.INFO, .MID, 7, 1, 1, 0, 0, 1⟩ [Char.ofNat 10]) =
      none := by
  decide

/-- Claim C5 evaluation: the file sink inserts the message verbatim, so the
line written for the message a-newline-b contains two newline bytes: the
record spans two lines instead of one. -/
theorem writeToFS_newline_defect :
    (writeToFS ⟨true, false, true⟩ ⟨.INFO, .MID, 7, 1, 1, 0, 0, 3⟩ "a\nb".data).1 =
      [fsLine ⟨.INFO, .MID, 7, 1, 1, 0, 0, 3⟩ "a\nb".data] ∧
    (fsLine ⟨.INFO, .MID, 7, 1, 1, 0, 0, 3⟩ "a\nb".data).count '\n' = 2 := by
  decide


/-- Claim C8 counterexample: for the non-escaping library publisher and a
message consisting of one quote character, a standard JSON parse of the
payload fails, so decoding does not reproduce the seven fields. -/
theorem roundtrip_lib_quote_counterexample :
    parsePayload (wsPayloadLib ⟨.INFO, .MID, 7, 1, 1, 0, 0, 1⟩ ['"']) = none := by
  decide

/-- Claim C8 (amended): for the escaping publisher of the variant source,
and every message whose bytes are at or above 0x20 or among the five
escaped control characters (this includes quote, backslash and newline),
standard JSON decoding of the payload reproduces all seven fields
exactly. -/
theorem roundtrip_payload_p1 (e : log_entry_t) (msg : List Char)
    (h : ∀ c ∈ msg, msgByteOk c) :
    parsePayload (wsPayloadP1 e msg) =
      some ⟨e.timestamp, typeToString e.type, sevToString e.sev,
        e.activity_uuid, e.seq_id, e.parent_uuid, msg⟩ :=
  parsePayload_wsP1 e msg h

/-- Witness for claim C8 at a message holding a quote, a backslash and a
newline. -/
theorem roundtrip_payload_p1_witness :
    parsePayload (wsPayloadP1 ⟨.INFO, .MID, 7, 1, 1, 0, 0, 4⟩
        ['a', '"', '\\', Char.ofNat 10]) =
      some ⟨7, "INFO".data, "MID".data, 1, 1, 0, ['a', '"', '\\', Char.ofNat 10]⟩ :=
  roundtrip_payload_p1 ⟨.INFO, .MID, 7, 1, 1, 0, 0, 4⟩
    ['a', '"', '\\', Char.ofNat 10] (by decide)

/-- Claim C9 counterexample: at one concrete entry and message the two
publisher implementations emit different payload byte strings. -/
theorem publishers_differ_counterexample :
    wsPayloadLib ⟨.INFO, .MID, 7, 12345, 1, 0, 0, 1⟩ ['a'] ≠
      wsPayloadP1 ⟨.INFO, .MID, 7, 12345, 1, 0, 0, 1⟩ ['a'] := by
  decide

/-- Claim C9 (amended): the two publisher implementations never produce
identical payloads for the same entry and message: the variant renders the
uuids quoted and escapes the message, so its payload is always strictly
longer. -/
theorem publishers_always_differ (e : log_entry_t) (msg : List Char) :
    wsPayloadLib e msg ≠ wsPayloadP1 e msg := by
  intro hq
  exact absurd (congrArg List.length hq) (Nat.ne_of_lt (wsPayload_len_lt e msg))

/-- Witness for claim C9 at a second concrete entry and message. -/
theorem publishers_always_differ_witness :
    wsPayloadLib ⟨.OK, .LOW, 3, 4, 5, 6, 0, 1⟩ ['b'] ≠
      wsPayloadP1 ⟨.OK, .LOW, 3, 4, 5, 6, 0, 1⟩ ['b'] :=
  publishers_always_differ ⟨.OK, .LOW, 3, 4, 5, 6, 0, 1⟩ ['b']


/-- Claim C7: on a fresh Logger with both sinks enabled, logging INFO, MID,
the scenario message, activity 12345, parent 0 at clock reading T appends
exactly the expected single file line and sends exactly the expected JSON
payload with seq 1 and the uuids as bare numbers. -/
theorem scenario_first_log (T : Nat) (h : T < U64) :
    log ⟨true, true, true⟩ ⟨T, true⟩ ⟨0⟩ .INFO .MID
        "Test log message number 1".data 12345 0 =
      Except.ok (⟨1⟩, ⟨.INFO, .MID, T, 12345, 1, 0, 0, 25⟩,
        ⟨["[INFO], \x7bMID\x7d, Activity: 12345 Seq: 1 Parent: 0 \x2d\x2d Test log message number 1\n".data],
         ["\x7b\"timestamp\":".data ++ natStr T ++
          ",\"type\":\"INFO\",\"severity\":\"MID\",\"activity_uuid\":12345,\"seq_id\":1,\"parent_uuid\":0,\"message\":\"Test log message number 1\"\x7d".data],
         []⟩) := by
  have h2 : T < 18446744073709551616 := h
  have hm : T % 18446744073709551616 = T := Nat.mod_eq_of_lt h
  have e0 : natStr 0 = ['0'] := by decide
  have e1 : natStr 1 = ['1'] := by decide
  have e12345 : natStr 12345 = ['1', '2', '3', '4', '5'] := by decide
  simp [log, buildEntry, writeToFS, writeToWS, fsLine, wsPayloadLib,
    typeToString, sevToString, U64, h2, hm, e0, e1, e12345]

/-- Witness for claim C7 at clock reading 42. -/
theorem scenario_first_log_witness :
    log ⟨true, true, true⟩ ⟨42, true⟩ ⟨0⟩ .INFO .MID
        "Test log message number 1".data 12345 0 =
      Except.ok (⟨1⟩, ⟨.INFO, .MID, 42, 12345, 1, 0, 0, 25⟩,
        ⟨["[INFO], \x7bMID\x7d, Activity: 12345 Seq: 1 Parent: 0 \x2d\x2d Test log message number 1\n".data],
         ["\x7b\"timestamp\":".data ++ natStr 42 ++
          ",\"type\":\"INFO\",\"severity\":\"MID\",\"activity_uuid\":12345,\"seq_id\":1,\"parent_uuid\":0,\"message\":\"Test log message number 1\"\x7d".data],
         []⟩) :=
  scenario_first_log 42 (by decide)

end VS
